import Mathlib

/-!
Shallow embedding of the denorunner repository (a Go library that runs
JavaScript "lambda" functions in a supervised Deno child process) and proofs
about its specified behavior.

The embedding translates the Go source (deno.go, util.go and the runtime
template) into pure Lean definitions.  External effects (filesystem calls,
process spawning, TCP binds and dials, HTTP responses, context cancellation)
are supplied explicitly as oracle/environment values, and the functions
compute exactly what the Go control flow computes from those outcomes.
-/

set_option maxRecDepth 100000

namespace DenoRunner

/-! ## SHA-1 (crypto/sha1), used by newFunctionHash -/

/-- Modulus for 32-bit words. -/
def mod32 : Nat := 4294967296

/-- Rotate a 32-bit word left by `n` bits. -/
def rotl32 (x n : Nat) : Nat := ((x <<< n) ||| (x >>> (32 - n))) % mod32

/-- Encode one character as UTF-8 bytes (Go strings are UTF-8). -/
def utf8EncodeChar (c : Char) : List Nat :=
  let n := c.toNat
  if n < 128 then [n]
  else if n < 2048 then [192 ||| (n >>> 6), 128 ||| (n &&& 63)]
  else if n < 65536 then
    [224 ||| (n >>> 12), 128 ||| ((n >>> 6) &&& 63), 128 ||| (n &&& 63)]
  else
    [240 ||| (n >>> 18), 128 ||| ((n >>> 12) &&& 63), 128 ||| ((n >>> 6) &&& 63),
     128 ||| (n &&& 63)]

/-- Encode a string as its UTF-8 byte sequence. -/
def utf8Bytes (s : String) : List Nat :=
  s.data.foldr (fun c acc => utf8EncodeChar c ++ acc) []

/-- Encode a natural number as 8 big-endian bytes. -/
def be64 (n : Nat) : List Nat :=
  [(n >>> 56) &&& 255, (n >>> 48) &&& 255, (n >>> 40) &&& 255, (n >>> 32) &&& 255,
   (n >>> 24) &&& 255, (n >>> 16) &&& 255, (n >>> 8) &&& 255, n &&& 255]

/-- Pad an SHA-1 message: append 0x80, zeros up to 56 mod 64, then the bit length. -/
def sha1Pad (msg : List Nat) : List Nat :=
  let len := msg.length
  let zeros := (120 - ((len + 1) % 64)) % 64
  msg ++ [128] ++ List.replicate zeros 0 ++ be64 (len * 8)

/-- Group bytes into big-endian 32-bit words. -/
def bytesToWords : List Nat → List Nat
  | b0 :: b1 :: b2 :: b3 :: rest =>
      ((b0 <<< 24) ||| (b1 <<< 16) ||| (b2 <<< 8) ||| b3) :: bytesToWords rest
  | _ => []

/-- Extend the 16-word message schedule by the given number of extra words. -/
def sha1Schedule (ws : List Nat) : Nat → List Nat
  | 0 => ws
  | f + 1 =>
    let n := ws.length
    let w := rotl32 ((ws.getD (n - 3) 0) ^^^ (ws.getD (n - 8) 0) ^^^
                    (ws.getD (n - 14) 0) ^^^ (ws.getD (n - 16) 0)) 1
    sha1Schedule (ws ++ [w]) f

/-- Running SHA-1 state (five 32-bit words). -/
structure Sha1State where
  a : Nat
  b : Nat
  c : Nat
  d : Nat
  e : Nat
deriving Repr, DecidableEq

/-- Execute one SHA-1 round at index `i` with schedule word `w`. -/
def sha1Round (st : Sha1State) (i w : Nat) : Sha1State :=
  let fk : Nat × Nat :=
    if i < 20 then ((st.b &&& st.c) ||| ((4294967295 ^^^ st.b) &&& st.d), 1518500249)
    else if i < 40 then (st.b ^^^ st.c ^^^ st.d, 1859775393)
    else if i < 60 then ((st.b &&& st.c) ||| (st.b &&& st.d) ||| (st.c &&& st.d), 2400959708)
    else (st.b ^^^ st.c ^^^ st.d, 3395469782)
  let temp := (rotl32 st.a 5 + fk.1 + st.e + fk.2 + w) % mod32
  ⟨temp, st.a, rotl32 st.b 30, st.c, st.d⟩

/-- Run the SHA-1 rounds over a schedule, starting at round index `i`. -/
def sha1Rounds (st : Sha1State) (i : Nat) : List Nat → Sha1State
  | [] => st
  | w :: ws => sha1Rounds (sha1Round st i w) (i + 1) ws

/-- Process one 64-byte chunk, updating the running hash state. -/
def sha1Chunk (h : Sha1State) (chunk : List Nat) : Sha1State :=
  let ws := sha1Schedule (bytesToWords chunk) 64
  let st := sha1Rounds h 0 ws
  ⟨(h.a + st.a) % mod32, (h.b + st.b) % mod32, (h.c + st.c) % mod32,
   (h.d + st.d) % mod32, (h.e + st.e) % mod32⟩

/-- Split a byte list into 64-byte chunks (fuel keeps the recursion structural). -/
def splitChunksAux : Nat → List Nat → List (List Nat)
  | 0, _ => []
  | _, [] => []
  | fuel + 1, bs => bs.take 64 :: splitChunksAux fuel (bs.drop 64)

/-- Split a byte list into 64-byte chunks. -/
def splitChunks (bs : List Nat) : List (List Nat) := splitChunksAux bs.length bs

/-- Initial SHA-1 state. -/
def sha1InitState : Sha1State := ⟨1732584193, 4023233417, 2562383102, 271733878, 3285377520⟩

/-- Lower-case hex digit for a nibble. -/
def hexDigit (n : Nat) : Char :=
  if n < 10 then Char.ofNat (48 + n) else Char.ofNat (87 + n)

/-- Render a 32-bit word as 8 lower-case hex digits. -/
def word8Hex (w : Nat) : List Char :=
  [hexDigit ((w >>> 28) &&& 15), hexDigit ((w >>> 24) &&& 15),
   hexDigit ((w >>> 20) &&& 15), hexDigit ((w >>> 16) &&& 15),
   hexDigit ((w >>> 12) &&& 15), hexDigit ((w >>> 8) &&& 15),
   hexDigit ((w >>> 4) &&& 15), hexDigit (w &&& 15)]

/-- Full SHA-1 digest of a string, rendered as 40 lower-case hex characters. -/
def sha1Hex (s : String) : String :=
  let final := (splitChunks (sha1Pad (utf8Bytes s))).foldl sha1Chunk sha1InitState
  ⟨word8Hex final.a ++ word8Hex final.b ++ word8Hex final.c ++
   word8Hex final.d ++ word8Hex final.e⟩

/-- Translation of `newFunctionHash` (deno.go): `sha1.Sum` of the code rendered
with the `%x` format, i.e. lower-case hex. -/
def newFunctionHash (code : String) : String := sha1Hex code

/-! ## Filesystem model

The filesystem is modelled as a set of existing directory paths plus a map
from file paths to contents, both as association lists. -/

/-- Test whether string `a` is a leading part of string `b`. -/
def strLeads (a b : String) : Bool := b.take a.length == a

/-- Shallow filesystem state: existing directories and files-with-contents. -/
structure FSState where
  dirs : List String
  files : List (String × String)
deriving Repr, DecidableEq

/-- Empty filesystem. -/
def emptyFS : FSState := ⟨[], []⟩

/-- Translation of a successful `os.MkdirAll`: creating an already-existing
directory is a no-op (idempotent); otherwise the directory is added. -/
def mkdirAll (fs : FSState) (dir : String) : FSState :=
  if fs.dirs.contains dir then fs else { fs with dirs := dir :: fs.dirs }

/-- Whether a directory exists in the filesystem model. -/
def dirExists (fs : FSState) (dir : String) : Bool := fs.dirs.contains dir

/-- Translation of a successful `os.WriteFile`: create or overwrite. -/
def writeFile (fs : FSState) (path content : String) : FSState :=
  { fs with files := (path, content) :: fs.files.filter (fun kv => !(kv.1 == path)) }

/-- Translation of `os.RemoveAll` (successful case): deletes the path and
everything below it. -/
def removeAllFS (fs : FSState) (dir : String) : FSState :=
  ⟨fs.dirs.filter (fun p => !(p == dir || strLeads (dir ++ "/") p)),
   fs.files.filter (fun kv => !(kv.1 == dir || strLeads (dir ++ "/") kv.1))⟩

/-! ## JSON values and the jsError decoder -/

/-- JSON values as decoded by `encoding/json` into `interface{}` (numbers are
modelled as integers; no claim depends on numeric representation). -/
inductive Json where
  | null
  | bool (b : Bool)
  | num (n : Int)
  | str (s : String)
  | arr (xs : List Json)
  | obj (fields : List (String × Json))

/-- Look up a key in a decoded JSON object (Go maps decoded from JSON carry
each key at most once). -/
def lookupField : List (String × Json) → String → Option Json
  | [], _ => none
  | (k, v) :: rest, key => if k == key then some v else lookupField rest key

/-- Translation of the local `jsError` struct in `Invoke`. -/
structure JsError where
  message : String
  stack : String
deriving Repr, DecidableEq

/-- Decode one string field the way `encoding/json.Unmarshal` does for a
`string`-typed struct field: absent or `null` leaves the zero value, a JSON
string is taken verbatim, any other value is a type error. -/
def unmarshalStringField (fields : List (String × Json)) (key : String) : Option String :=
  match lookupField fields key with
  | none => some ("")
  | some .null => some ("")
  | some (.str s) => some s
  | some _ => none

/-- Translation of `json.Unmarshal` into the `jsError` struct: a JSON object
(or `null`) decodes, with zero values for absent fields; anything else is a
decode error. -/
def unmarshalJsError : Json → Option JsError
  | .obj fields =>
    match unmarshalStringField fields ("message"), unmarshalStringField fields ("stack") with
    | some m, some s => some ⟨m, s⟩
    | _, _ => none
  | .null => some ⟨"", ""⟩
  | _ => none

/-! ## The function instance, Invoke and Close -/

/-- Exit information of a reaped child process (`os.ProcessState`): `exited`
models `ProcessState.Exited()`, i.e. WIFEXITED — true when the child
terminated normally by exiting, false when it was terminated by a signal
(such as the SIGKILL sent by `Close`). -/
structure ProcessExit where
  exited : Bool
deriving Repr, DecidableEq

/-- Translation of `DenoFunctionInstance` (the fields the claims touch).
`processState` models `cmd.ProcessState`: `none` while the child has not been
reaped by `cmd.Wait`, and the exit information once it has. -/
structure DenoFunctionInstance where
  serverURL : String
  tempDir : String
  processState : Option ProcessExit
deriving Repr, DecidableEq

/-- Translation of Invoke's exit guard
`inst.cmd.ProcessState != nil && inst.cmd.ProcessState.Exited()`. -/
def DenoFunctionInstance.processExited (inst : DenoFunctionInstance) : Bool :=
  match inst.processState with
  | some ps => ps.exited
  | none => false

/-- Outcome of the single HTTP POST issued by `Invoke`, as supplied by the
environment: either a transport error from `http.DefaultClient.Do`, or a
response with a status code, its raw body, and the result of JSON-decoding the
body (`none` when the body does not decode — JSON codecs are external
collaborators not modelled bit-for-bit). -/
inductive HttpOutcome where
  | transportErr
  | resp (status : Nat) (rawBody : String) (decoded : Option Json)

/-- Environment for one `Invoke` call: whether `http.NewRequestWithContext`
succeeds, and what the HTTP round trip produces. -/
structure InvokeEnv where
  reqOk : Bool
  outcome : HttpOutcome

/-- Failure kinds returned by `Invoke`, one per `return nil, ...` site. -/
inductive InvokeErr where
  | processExited
  | invokeCall
  | httpRequest
  | httpError (rawBody : String)
  | unmarshallResponse
  | runtimeErrorStructured (message stack : String)
  | runtimeErrorRaw (errorValue : Json)

/-- Translation of the tail of `Invoke`: classification of a successfully
decoded 200-response body.  An object with an `error` key is decoded as a
`jsError` (structured runtime error on success, the raw error value otherwise);
every other value is returned verbatim. -/
def classifyResult (result : Json) : Except InvokeErr Json :=
  match result with
  | .obj fields =>
    match lookupField fields ("error") with
    | some errorObj =>
      match unmarshalJsError errorObj with
      | none => .error (.runtimeErrorRaw errorObj)
      | some je => .error (.runtimeErrorStructured je.message je.stack)
    | none => .ok (.obj fields)
  | other => .ok other

/-- Translation of `DenoFunctionInstance.Invoke`, following the Go control
flow: exit precondition first, then request construction, the HTTP call,
the 200-status check, body decoding, and result classification. -/
def invoke (inst : DenoFunctionInstance) (env : InvokeEnv) : Except InvokeErr Json :=
  if inst.processExited then .error .processExited
  else if !env.reqOk then .error .invokeCall
  else
    match env.outcome with
    | .transportErr => .error .httpRequest
    | .resp status rawBody decoded =>
      if status ≠ 200 then .error (.httpError rawBody)
      else
        match decoded with
        | none => .error .unmarshallResponse
        | some result => classifyResult result

/-- Translation of the embedded deno-runtime-template/template.js (braces are
written as hex escapes). -/
def denoFunctionTemplate : String :=
  "\x7b\x7b.Code\x7d\x7d\n\n" ++
  "var _init, _start, _run, _stop, _handle;\n" ++
  "(function() \x7b\n" ++
  "    var initData = \x7b\x7b.InitData\x7d\x7d;\n" ++
  "    // Initialization\n" ++
  "    try \x7b\n" ++
  "        _init = init.bind(null, initData);\n" ++
  "    \x7d catch (e) \x7b\n" ++
  "        _init = () => \x7b\n" ++
  "        \x7d;\n" ++
  "    \x7d\n\n" ++
  "    try \x7b\n" ++
  "        _handle = handle;\n" ++
  "    \x7d catch (e) \x7b\n" ++
  "        _handle = () => \x7b\n" ++
  "        \x7d;\n" ++
  "    \x7d\n" ++
  "\x7d)();\n\n\n" ++
  "export \x7b\n" ++
  "    _init as init,\n" ++
  "    _handle as handle\n" ++
  "\x7d;"

/-- Translation of `wrapScript`: render the template with the user code and
the JSON-serialized init data substituted for the two template actions. -/
def wrapScript (initJSON code : String) : String :=
  (denoFunctionTemplate.replace ("\x7b\x7b.Code\x7d\x7d") code).replace
    ("\x7b\x7b.InitData\x7d\x7d") initJSON

/-- Names of the static runtime-support files copied into the function
directory.  Modelled from the spec: the source embeds
deno-runtime-template/*.ts, whose contents are not part of this repository
snapshot; the only name the repository mentions is function_server.ts. -/
def denoRuntimeFileNames : List String := ["function_server.ts"]

/-- Translation of `copyDenoFiles` (successful case): write each embedded
runtime-support file into the destination directory (contents are opaque
here). -/
def copyDenoFiles (fs : FSState) (destDir : String) : FSState :=
  denoRuntimeFileNames.foldl
    (fun acc name => writeFile acc (destDir ++ "/" ++ name) ("embedded:" ++ name)) fs

/-! ## Port allocator (util.go FindFreePort) -/

/-- Environment for the port allocator: which TCP binds succeed, and the
pseudo-random draw for each call of `rand.Intn(10000)` (indexed by draw
number). -/
structure PortEnv where
  bindOk : Nat → Bool
  randFn : Nat → Nat

/-- Loop of `FindFreePort`.  The fuel counts the remaining re-draws before the
`iterations > 1000` bail-out; each iteration skips ports already handed out,
probes a TCP bind otherwise, and returns the port on success, threading the
process-wide handed-out set. -/
def findFreePortAux (startPort : Nat) (env : PortEnv) (handedOut : List Nat)
    (port : Nat) (drawIdx : Nat) : Nat → Int × List Nat
  | 0 =>
    if !handedOut.contains port && env.bindOk port then ((port : Int), port :: handedOut)
    else (-1, handedOut)
  | fuel + 1 =>
    if !handedOut.contains port && env.bindOk port then ((port : Int), port :: handedOut)
    else findFreePortAux startPort env handedOut
      (startPort + env.randFn drawIdx % 10000) (drawIdx + 1) fuel

/-- Translation of `FindFreePort`: draw `startPort + rand.Intn(10000)`, retry
on failure, and give up with the sentinel -1 once `iterations > 1000` (the
first drawn port plus 1000 re-draws). -/
def findFreePort (startPort : Nat) (env : PortEnv) (handedOut : List Nat) : Int × List Nat :=
  findFreePortAux startPort env handedOut (startPort + env.randFn 0 % 10000) 1 1000

/-! ## Readiness wait loop -/

/-- Observations for one iteration of the constructor's wait loop: whether the
caller's context is done, whether the exit channel has a value ready, whether
the TCP dial would succeed, and — for the case where both channels are ready
at once — which of the two cases the `select` statement's uniform random
choice picks (`chooseExit = true` picks the exit-channel case).  Like the
allocator's random draws, the randomness is supplied by the environment. -/
structure IterObs where
  ctxDone : Bool
  exited : Bool
  dialOk : Bool
  chooseExit : Bool
deriving Repr, DecidableEq

/-- Outcome of the wait loop. `stillWaiting` means the supplied observation
trace ran out while the loop was still polling (the real loop would keep
going). -/
inductive WaitOutcome where
  | canceled
  | exitedOnBoot
  | ready
  | stillWaiting
deriving Repr, DecidableEq

/-- Translation of the `waitLoop` in `NewDenoFunctionInstance`: per iteration,
the `select` with a `default` case takes a ready channel case when there is
one — when both the context and the exit channel are ready, Go chooses
between the two cases uniformly at random (here: by the environment's draw) —
and otherwise falls through to the dial; a failed dial sleeps 100ms and
retries.  Returns the outcome and the total milliseconds slept. -/
def waitForServer : List IterObs → WaitOutcome × Nat
  | [] => (.stillWaiting, 0)
  | o :: rest =>
    if o.ctxDone && o.exited then
      if o.chooseExit then (.exitedOnBoot, 0) else (.canceled, 0)
    else if o.ctxDone then (.canceled, 0)
    else if o.exited then (.exitedOnBoot, 0)
    else if o.dialOk then (.ready, 0)
    else
      let r := waitForServer rest
      (r.1, r.2 + 100)

/-! ## The constructor NewDenoFunctionInstance -/

/-- Configuration passed to the constructor. -/
structure Config where
  workDir : String
  denoPath : String
deriving Repr, DecidableEq

/-- Directory the constructor materializes for a function:
`fmt.Sprintf("%s/.deno/function-%s", config.WorkDir, newFunctionHash(code))`. -/
def denoDirFor (cfg : Config) (code : String) : String :=
  cfg.workDir ++ "/.deno/function-" ++ newFunctionHash code

/-- Directory the spec claims the constructor materializes
(`workDir/.cache/function-<hash>`), stated from the spec text for comparison
with the source translation `denoDirFor`. -/
def specFunctionDir (workDir hash : String) : String :=
  workDir ++ "/.cache/function-" ++ hash

/-- Argument vector of the spawned deno command. -/
def denoArgs (denoDir portStr : String) : List String :=
  ["run", "--unstable", "--allow-net", "--allow-env",
   denoDir ++ "/function_server.ts", portStr]

/-- Environment variables of the spawned deno command. -/
def denoEnvVars (cfg : Config) : List String :=
  ["NO_COLOR=1", "DENO_DIR=" ++ cfg.workDir ++ "/.deno/cache"]

/-- Record of the child process start (`exec.Command` + `cmd.Start`). -/
structure SpawnRecord where
  path : String
  args : List String
  envVars : List String
deriving Repr, DecidableEq

/-- Failure kinds returned by the constructor, one per `return nil, ...`
site. -/
inductive ConstructErr where
  | createDenoDir
  | copyDenoFilesErr
  | writeJsFunctionFile
  | stdoutPipeErr
  | stderrPipeErr
  | denoRun
  | ctxCanceled
  | denoExitedOnBoot
deriving Repr, DecidableEq

/-- Result of the constructor. `blocked` models the boot-observation trace
running out while the wait loop was still polling. -/
inductive ConstructResult where
  | ok (inst : DenoFunctionInstance)
  | fail (e : ConstructErr)
  | blocked
deriving Repr, DecidableEq

/-- Environment for one constructor run: success of each external operation in
source order, the port allocator environment, and the boot-wait
observations. -/
structure ConstructEnv where
  mkdirOk : Bool
  copyOk : Bool
  writeJsOk : Bool
  port : PortEnv
  stdoutPipeOk : Bool
  stderrPipeOk : Bool
  startOk : Bool
  boot : List IterObs

/-- Everything a constructor run leaves behind: its result, the filesystem,
the process-wide handed-out-port set, and the spawned child (if `cmd.Start`
succeeded). -/
structure ConstructOutcome where
  result : ConstructResult
  fs : FSState
  handedOutPorts : List Nat
  spawned : Option SpawnRecord

/-- Translation of `NewDenoFunctionInstance`, in source order: materialize the
function directory under workDir/.deno, copy the runtime files, write
function.js, allocate a port (result used unchecked), create the command with
its restricted-capability arguments, open the pipes, start the child, then
poll for readiness.  Failures after a successful start run the deferred
rollback, which calls `Close` (kill + RemoveAll); earlier failures return with
the filesystem as it stands. -/
def newDenoFunctionInstance (cfg : Config) (initJSON code : String)
    (env : ConstructEnv) (fs0 : FSState) (ports0 : List Nat) : ConstructOutcome :=
  let denoDir := cfg.workDir ++ "/.deno/function-" ++ newFunctionHash code
  if !env.mkdirOk then ⟨.fail .createDenoDir, fs0, ports0, none⟩
  else
    let fs1 := mkdirAll fs0 denoDir
    if !env.copyOk then ⟨.fail .copyDenoFilesErr, fs1, ports0, none⟩
    else
      let fs2 := copyDenoFiles fs1 denoDir
      if !env.writeJsOk then ⟨.fail .writeJsFunctionFile, fs2, ports0, none⟩
      else
        let fs3 := writeFile fs2 (denoDir ++ "/function.js") (wrapScript initJSON code)
        let portResult := findFreePort 8000 env.port ports0
        let listenPort := portResult.1
        let ports1 := portResult.2
        if !env.stdoutPipeOk then ⟨.fail .stdoutPipeErr, fs3, ports1, none⟩
        else if !env.stderrPipeOk then ⟨.fail .stderrPipeErr, fs3, ports1, none⟩
        else if !env.startOk then ⟨.fail .denoRun, fs3, ports1, none⟩
        else
          let spawned := some (SpawnRecord.mk cfg.denoPath
            (denoArgs denoDir (toString listenPort)) (denoEnvVars cfg))
          let serverURL := "http://localhost:" ++ toString listenPort
          match (waitForServer env.boot).1 with
          | .canceled => ⟨.fail .ctxCanceled, removeAllFS fs3 denoDir, ports1, spawned⟩
          | .exitedOnBoot => ⟨.fail .denoExitedOnBoot, removeAllFS fs3 denoDir, ports1, spawned⟩
          | .stillWaiting => ⟨.blocked, fs3, ports1, spawned⟩
          | .ready => ⟨.ok ⟨serverURL, denoDir, none⟩, fs3, ports1, spawned⟩

/-! ## Log drain (pipeLogStreamToCallback) -/

/-- Translation of `bufio.Reader.ReadString` with delimiter newline: returns
the segment up to and including the first newline plus the remaining input, or
`none` (an error result) when the input ends before a newline is found. -/
def readStringNewline : List Char → Option (List Char × List Char)
  | [] => none
  | c :: rest =>
    if c = '\n' then some ([c], rest)
    else
      match readStringNewline rest with
      | some (line, remaining) => some (c :: line, remaining)
      | none => none

/-- Loop body of `pipeLogStreamToCallback`, with fuel keeping the recursion
structural: on a read error the loop breaks without forwarding the partial
line; otherwise the full line (delimiter included) is forwarded. -/
def drainAux : Nat → List Char → List String
  | 0, _ => []
  | fuel + 1, s =>
    match readStringNewline s with
    | some (line, remaining) => line.asString :: drainAux fuel remaining
    | none => []

/-- Translation of `pipeLogStreamToCallback`: the list of lines delivered to
the callback, in order, for a stream with the given contents. -/
def pipeLogStreamToCallback (s : List Char) : List String := drainAux s.length s

/-! ## Interleaving model of concurrent Invoke calls

`Invoke` takes `runLock` as its first action and releases it on return (a
deferred unlock), so the exit check, request construction, HTTP call, response
decoding and classification all happen between acquire and release.  The
model below runs `n` concurrent `Invoke` calls as an interleaving of atomic
micro-steps over a shared mutex. -/

/-- Program counter of one `Invoke` call, following the source order.  All
positions strictly between `start` and `finished` execute while `runLock` is
held. -/
inductive InvokePc where
  | start
  | checkExited
  | buildRequest
  | httpCall
  | decodeResponse
  | classify
  | finished
deriving Repr, DecidableEq

/-- Successor of each in-lock program position (the release from `classify` to
`finished` is a separate step). -/
def nextPc : InvokePc → Option InvokePc
  | .checkExited => some .buildRequest
  | .buildRequest => some .httpCall
  | .httpCall => some .decodeResponse
  | .decodeResponse => some .classify
  | _ => none

/-- Whether a program position lies inside the lock-protected body of
`Invoke`. -/
def holdsLockAt : InvokePc → Bool
  | .start => false
  | .finished => false
  | _ => true

/-- Shared state of `n` concurrent `Invoke` calls on one instance: who owns
`runLock`, and each call's position. -/
structure MultiState (n : Nat) where
  lockOwner : Option (Fin n)
  pcs : Fin n → InvokePc

/-- Initial state: lock free, every call about to enter `Invoke`. -/
def initMulti (n : Nat) : MultiState n := ⟨none, fun _ => .start⟩

/-- Interleaving semantics: a call may acquire the free lock, advance through
the body, or release the lock when its body is done.  Acquiring blocks while
another call owns the lock (`sync.Mutex` semantics); body steps themselves
carry no lock precondition — that the stepping call owns the lock is proved,
not assumed. -/
inductive InvokeStep (n : Nat) : MultiState n → MultiState n → Prop where
  | acquire (s : MultiState n) (t : Fin n) :
      s.pcs t = .start → s.lockOwner = none →
      InvokeStep n s ⟨some t, Function.update s.pcs t .checkExited⟩
  | advance (s : MultiState n) (t : Fin n) (p p' : InvokePc) :
      s.pcs t = p → nextPc p = some p' →
      InvokeStep n s ⟨s.lockOwner, Function.update s.pcs t p'⟩
  | release (s : MultiState n) (t : Fin n) :
      s.pcs t = .classify →
      InvokeStep n s ⟨none, Function.update s.pcs t .finished⟩

/-- Reachability from the initial state of the `n`-call system. -/
def ReachableInvoke (n : Nat) (s : MultiState n) : Prop :=
  Relation.ReflTransGen (InvokeStep n) (initMulti n) s

/-- Lock invariant: every call inside the protected body owns the lock. -/
def lockInv {n : Nat} (s : MultiState n) : Prop :=
  ∀ t : Fin n, holdsLockAt (s.pcs t) = true → s.lockOwner = some t

/-! ## Helper projections and concrete fixtures used by witnesses -/

/-- Whether a JSON value is an object. -/
def jsonIsObj : Json → Bool
  | .obj _ => true
  | _ => false

/-- Temp directory of the constructed instance, when construction succeeded. -/
def okTempDir (o : ConstructOutcome) : Option String :=
  match o.result with
  | .ok inst => some inst.tempDir
  | _ => none

/-- Server URL of the constructed instance, when construction succeeded. -/
def okServerURL (o : ConstructOutcome) : Option String :=
  match o.result with
  | .ok inst => some inst.serverURL
  | _ => none

/-- Test configuration. -/
def cfgT : Config := ⟨"work", "deno"⟩

/-- Port environment where every bind succeeds and every draw is 0. -/
def portEnvBindAll : PortEnv := ⟨fun _ => true, fun _ => 0⟩

/-- Port environment where every bind fails. -/
def portEnvBindNone : PortEnv := ⟨fun _ => false, fun _ => 0⟩

/-- Constructor environment where every external operation succeeds and the
child serves its port on the first dial. -/
def envAllOk : ConstructEnv :=
  ⟨true, true, true, portEnvBindAll, true, true, true, [⟨false, false, true, false⟩]⟩

/-- Constructor environment where `cmd.Start` fails and everything before it
succeeds. -/
def envSpawnFail : ConstructEnv :=
  ⟨true, true, true, portEnvBindAll, true, true, false, []⟩

/-- Constructor environment where no TCP bind ever succeeds, so the port
allocator exhausts its retry budget; everything else succeeds. -/
def envNoPorts : ConstructEnv :=
  ⟨true, true, true, portEnvBindNone, true, true, true, [⟨false, false, true, false⟩]⟩

/-- Constructor outcome on a fresh filesystem with all operations
succeeding. -/
def outAllOk : ConstructOutcome :=
  newDenoFunctionInstance cfgT ("\x7b\x7d") ("x") envAllOk emptyFS []

/-- Constructor outcome when the spawn step fails. -/
def outSpawnFail : ConstructOutcome :=
  newDenoFunctionInstance cfgT ("\x7b\x7d") ("x") envSpawnFail emptyFS []

/-- Constructor outcome when the port allocator returns the sentinel. -/
def outNoPorts : ConstructOutcome :=
  newDenoFunctionInstance cfgT ("\x7b\x7d") ("x") envNoPorts emptyFS []

/-- Instance produced by the all-ok constructor run. -/
def instT : DenoFunctionInstance :=
  ⟨"http://localhost:8000", "work/.deno/function-" ++ newFunctionHash ("x"), none⟩

/-! ## Filesystem lemmas -/

/-- Creating a directory makes it exist. -/
theorem dirExists_mkdirAll (fs : FSState) (d : String) :
    dirExists (mkdirAll fs d) d = true := by
  simp only [mkdirAll, dirExists]
  by_cases h : fs.dirs.contains d = true
  · rw [if_pos h]
    exact h
  · rw [if_neg h]
    simp [List.contains_cons]

/-- Creating an existing directory is a no-op. -/
theorem mkdirAll_of_exists (fs : FSState) (d : String) (h : dirExists fs d = true) :
    mkdirAll fs d = fs := by
  simp only [dirExists] at h
  simp only [mkdirAll]
  rw [if_pos h]

/-- Directory creation is idempotent. -/
theorem mkdirAll_idem (fs : FSState) (d : String) :
    mkdirAll (mkdirAll fs d) d = mkdirAll fs d :=
  mkdirAll_of_exists _ d (dirExists_mkdirAll fs d)

/-- Materializing the function directory (mkdir, copy runtime files, write
function.js) leaves the directory existing: the file writes do not touch the
directory set. -/
theorem dirExists_materialized (fs0 : FSState) (d p c : String) :
    dirExists (writeFile (copyDenoFiles (mkdirAll fs0 d) d) p c) d = true :=
  dirExists_mkdirAll fs0 d

/-- Claim C3 counterexample: a 204 response is in the 2xx class, yet `Invoke`
fails with the remote-HTTP-error kind carrying the raw body instead of
decoding it, because the source compares the status against exactly 200. -/
theorem invoke_status_204_counterexample :
    invoke ⟨("http://localhost:8000"), ("d"), none⟩
        ⟨true, .resp 204 ("ok-body") (some (.str ("v")))⟩
      = .error (.httpError ("ok-body")) ∧ 200 ≤ 204 ∧ 204 < 300 :=
  ⟨rfl, by decide, by decide⟩

/-- Claim C3 (amended): `Invoke` fails with the remote-HTTP-error kind
carrying the raw body exactly when the status differs from 200; on a 200
status it decodes the JSON body (decode failure is the unmarshal error,
success goes to result classification). -/
theorem invoke_status_check (inst : DenoFunctionInstance) (env : InvokeEnv)
    (status : Nat) (rawBody : String) (decoded : Option Json)
    (hexit : inst.processExited = false) (hreq : env.reqOk = true)
    (hout : env.outcome = .resp status rawBody decoded) :
    (status ≠ 200 → invoke inst env = .error (.httpError rawBody)) ∧
    (status = 200 → decoded = none → invoke inst env = .error .unmarshallResponse) ∧
    (status = 200 → ∀ result : Json, decoded = some result →
      invoke inst env = classifyResult result) := by
  obtain ⟨r, o⟩ := env
  simp only at hreq hout
  subst hreq
  subst hout
  refine ⟨fun h => ?_, fun h hd => ?_, fun h result hd => ?_⟩
  · simp [invoke, hexit, h]
  · subst h
    subst hd
    simp [invoke, hexit]
  · subst h
    subst hd
    simp [invoke, hexit]

/-- Witness for C3: a 404 response makes `Invoke` fail with the
remote-HTTP-error kind carrying the raw body. -/
theorem invoke_status_check_witness :
    invoke ⟨("http://localhost:8000"), ("d"), none⟩ ⟨true, .resp 404 ("nope") none⟩
      = .error (.httpError ("nope")) :=
  (invoke_status_check ⟨("http://localhost:8000"), ("d"), none⟩
    ⟨true, .resp 404 ("nope") none⟩ 404 ("nope") none rfl rfl rfl).1 (by decide)

/-! ## Claim C6: classification of decoded 200 bodies -/

/-- Claim C6 counterexample: the claim quantifies over every 2xx response, but
for a 204 response whose body is an object with an `error` key — one that even
decodes as a structured remote error — `Invoke` fails with the
remote-HTTP-error kind carrying the raw body, never reaching the error-key
classification: the source checks the status against exactly 200 first. -/
theorem invoke_error_key_2xx_counterexample :
    invoke ⟨("http://localhost:8000"), ("d"), none⟩
        ⟨true, .resp 204 ("raw-body")
          (some (.obj [(("error"),
            .obj [(("message"), .str ("boom")), (("stack"), .str ("tr"))])]))⟩
      = .error (.httpError ("raw-body")) ∧
    unmarshalJsError (.obj [(("message"), .str ("boom")), (("stack"), .str ("tr"))])
      = some ⟨("boom"), ("tr")⟩ ∧
    invoke ⟨("http://localhost:8000"), ("d"), none⟩
        ⟨true, .resp 204 ("raw-body")
          (some (.obj [(("error"),
            .obj [(("message"), .str ("boom")), (("stack"), .str ("tr"))])]))⟩
      ≠ .error (.runtimeErrorStructured ("boom") ("tr")) ∧
    200 ≤ 204 ∧ 204 < 300 :=
  ⟨rfl, rfl, fun h => InvokeErr.noConfusion (Except.error.inj h), by decide, by decide⟩

/-- Claim C6 (amended): for a response with status exactly 200 (rather than
any 2xx status — non-200 statuses fail with the remote-HTTP-error kind before
any body classification) whose body decodes to an object with an
`error` key, `Invoke` fails with the runtime-error kind — carrying message and
stack when the nested value decodes as a structured remote error, and the raw
error value otherwise; any decoded value without an `error` key (objects
without one, and all non-objects) is returned verbatim as success. -/
theorem invoke_error_key_classification (inst : DenoFunctionInstance) (env : InvokeEnv)
    (rawBody : String) (result : Json)
    (hexit : inst.processExited = false) (hreq : env.reqOk = true)
    (hout : env.outcome = .resp 200 rawBody (some result)) :
    (∀ fields errorObj, result = .obj fields → lookupField fields ("error") = some errorObj →
      (∀ je : JsError, unmarshalJsError errorObj = some je →
        invoke inst env = .error (.runtimeErrorStructured je.message je.stack)) ∧
      (unmarshalJsError errorObj = none →
        invoke inst env = .error (.runtimeErrorRaw errorObj))) ∧
    (∀ fields, result = .obj fields → lookupField fields ("error") = none →
      invoke inst env = .ok result) ∧
    (jsonIsObj result = false → invoke inst env = .ok result) := by
  obtain ⟨r, o⟩ := env
  simp only at hreq hout
  subst hreq
  subst hout
  have hred : invoke inst ⟨true, .resp 200 rawBody (some result)⟩ = classifyResult result := by
    simp [invoke, hexit]
  rw [hred]
  refine ⟨fun fields errorObj hobj herr => ?_, fun fields hobj herr => ?_, fun hnotObj => ?_⟩
  · subst hobj
    refine ⟨fun je hje => ?_, fun hje => ?_⟩
    · simp [classifyResult, herr, hje]
    · simp [classifyResult, herr, hje]
  · subst hobj
    simp [classifyResult, herr]
  · cases result <;> simp_all [classifyResult, jsonIsObj]

/-- Witness for C6: a structured error body makes `Invoke` fail with the
runtime-error kind carrying message and stack. -/
theorem invoke_error_key_classification_witness :
    invoke ⟨("http://localhost:8000"), ("d"), none⟩
        ⟨true, .resp 200 ("")
          (some (.obj [(("error"),
            .obj [(("message"), .str ("boom")), (("stack"), .str ("tr"))])]))⟩
      = .error (.runtimeErrorStructured ("boom") ("tr")) :=
  ((invoke_error_key_classification ⟨("http://localhost:8000"), ("d"), none⟩
      ⟨true, .resp 200 ("")
        (some (.obj [(("error"),
          .obj [(("message"), .str ("boom")), (("stack"), .str ("tr"))])]))⟩ ("")
      (.obj [(("error"), .obj [(("message"), .str ("boom")), (("stack"), .str ("tr"))])])
      rfl rfl rfl).1 _ _ rfl rfl).1 ⟨("boom"), ("tr")⟩ rfl

/-! ## Claim C8: the readiness wait loop -/

/-- Claim C8 counterexample: when the caller's context is done and the exit
channel is ready on the same iteration, the outcome follows the select
statement's random draw, not a fixed context-first priority — with the draw
picking the exit case, the loop reports the exited-during-boot kind even
though the context is done, so caller cancellation is not checked first. -/
theorem wait_loop_no_priority_counterexample :
    waitForServer [⟨true, true, true, true⟩] = (.exitedOnBoot, 0) ∧
    waitForServer [⟨true, true, true, false⟩] = (.canceled, 0) ∧
    WaitOutcome.exitedOnBoot ≠ WaitOutcome.canceled :=
  ⟨rfl, rfl, by decide⟩

/-- Claim C8 (amended): on each wait-loop iteration the select takes a ready
channel case when there is one — failing with the caller-cancellation kind
when only the context is done, with the distinct exited-during-boot kind when
only the exit channel is ready, and with one of the two chosen by the select's
uniform random draw when both are ready (neither has guaranteed priority);
only when neither is ready is the TCP dial attempted, a success ending the
loop and a failure adding a fixed 100ms sleep before retrying; with nothing
firing, the loop runs through any number of iterations (bounded only by the
caller's context). -/
theorem wait_loop_select (o : IterObs) (rest : List IterObs) :
    (o.ctxDone = true → o.exited = false → waitForServer (o :: rest) = (.canceled, 0)) ∧
    (o.ctxDone = false → o.exited = true → waitForServer (o :: rest) = (.exitedOnBoot, 0)) ∧
    (o.ctxDone = true → o.exited = true →
      waitForServer (o :: rest) =
        (if o.chooseExit then (.exitedOnBoot, 0) else (.canceled, 0))) ∧
    (o.ctxDone = false → o.exited = false → o.dialOk = true →
      waitForServer (o :: rest) = (.ready, 0)) ∧
    (o.ctxDone = false → o.exited = false → o.dialOk = false →
      waitForServer (o :: rest) = ((waitForServer rest).1, (waitForServer rest).2 + 100)) ∧
    (∀ k : Nat, waitForServer (List.replicate k ⟨false, false, false, false⟩) =
      (.stillWaiting, 100 * k)) := by
  refine ⟨fun h1 h2 => by simp [waitForServer, h1, h2],
    fun h1 h2 => by simp [waitForServer, h1, h2],
    fun h1 h2 => by simp [waitForServer, h1, h2],
    fun h1 h2 h3 => by simp [waitForServer, h1, h2, h3],
    fun h1 h2 h3 => by simp [waitForServer, h1, h2, h3],
    fun k => ?_⟩
  induction k with
  | zero => rfl
  | succ m ih =>
    rw [List.replicate_succ]
    simp [waitForServer, ih]
    ring

/-- Witness for C8: a concrete iteration with only the context done fails with
the cancellation kind, and a concrete both-ready iteration follows the
draw. -/
theorem wait_loop_select_witness :
    waitForServer [⟨true, false, true, false⟩] = (.canceled, 0) ∧
    waitForServer [⟨true, true, false, true⟩] =
      (if (true : Bool) then (.exitedOnBoot, 0) else (.canceled, 0)) :=
  ⟨(wait_loop_select ⟨true, false, true, false⟩ []).1 rfl rfl,
   (wait_loop_select ⟨true, true, false, true⟩ []).2.2.1 rfl rfl⟩

/-! ## Claim C10: the log drain -/

/-- A successful line read splits the input: line plus remainder is the whole
stream. -/
theorem readStringNewline_append (s line remaining : List Char)
    (h : readStringNewline s = some (line, remaining)) : line ++ remaining = s := by
  induction s generalizing line remaining with
  | nil => simp [readStringNewline] at h
  | cons c rest ih =>
    simp only [readStringNewline] at h
    by_cases hc : c = '\n'
    · rw [if_pos hc] at h
      obtain ⟨h1, h2⟩ := Prod.mk.injEq .. ▸ Option.some.inj h
      subst h1
      subst h2
      rfl
    · rw [if_neg hc] at h
      cases hr : readStringNewline rest with
      | none => rw [hr] at h; exact absurd h (by simp)
      | some p =>
        obtain ⟨l2, r2⟩ := p
        rw [hr] at h
        obtain ⟨h1, h2⟩ := Prod.mk.injEq .. ▸ Option.some.inj h
        subst h1
        subst h2
        simpa using ih l2 r2 hr

/-- A successfully read line ends with the newline delimiter. -/
theorem readStringNewline_last (s line remaining : List Char)
    (h : readStringNewline s = some (line, remaining)) :
    line.getLast? = some '\n' := by
  induction s generalizing line remaining with
  | nil => simp [readStringNewline] at h
  | cons c rest ih =>
    simp only [readStringNewline] at h
    by_cases hc : c = '\n'
    · rw [if_pos hc] at h
      obtain ⟨h1, _⟩ := Prod.mk.injEq .. ▸ Option.some.inj h
      subst h1
      simp [hc]
    · rw [if_neg hc] at h
      cases hr : readStringNewline rest with
      | none => rw [hr] at h; exact absurd h (by simp)
      | some p =>
        obtain ⟨l2, r2⟩ := p
        rw [hr] at h
        obtain ⟨h1, _⟩ := Prod.mk.injEq .. ▸ Option.some.inj h
        subst h1
        have hl2 := ih l2 r2 hr
        cases l2 with
        | nil => simp at hl2
        | cons c2 rest2 =>
          rw [List.getLast?_cons_cons]
          exact hl2

/-- Reading succeeds on any stream whose last character is a newline. -/
theorem readStringNewline_total (s : List Char) (h : s.getLast? = some '\n') :
    (readStringNewline s).isSome := by
  induction s with
  | nil => simp at h
  | cons c rest ih =>
    by_cases hc : c = '\n'
    · simp [readStringNewline, hc]
    · cases rest with
      | nil =>
        simp at h
        exact absurd h hc
      | cons c2 rest2 =>
        rw [List.getLast?_cons_cons] at h
        obtain ⟨⟨l2, r2⟩, hr⟩ := Option.isSome_iff_exists.mp (ih h)
        show (if c = '\n' then some ([c], c2 :: rest2)
          else
            match readStringNewline (c2 :: rest2) with
            | some (line, remaining) => some (c :: line, remaining)
            | none => none).isSome = true
        rw [if_neg hc, hr]
        rfl

/-- The remainder after a successful line read is strictly shorter. -/
theorem readStringNewline_shorter (s line remaining : List Char)
    (h : readStringNewline s = some (line, remaining)) :
    remaining.length < s.length := by
  have happ := readStringNewline_append s line remaining h
  have hlast := readStringNewline_last s line remaining h
  have hne : line ≠ [] := by
    intro he
    rw [he] at hlast
    simp at hlast
  have hpos : 0 < line.length := List.length_pos.mpr hne
  have : line.length + remaining.length = s.length := by
    rw [← happ, List.length_append]
  omega

/-- A failed line read means the input contains no newline at all. -/
theorem readStringNewline_none (s : List Char) (h : readStringNewline s = none) :
    '\n' ∉ s := by
  induction s with
  | nil => simp
  | cons c rest ih =>
    simp only [readStringNewline] at h
    by_cases hc : c = '\n'
    · rw [if_pos hc] at h
      exact absurd h (by simp)
    · rw [if_neg hc] at h
      cases hr : readStringNewline rest with
      | some p =>
        obtain ⟨l2, r2⟩ := p
        rw [hr] at h
        exact absurd h (by simp)
      | none =>
        have hrest := ih hr
        simp only [List.mem_cons]
        rintro (hhd | htl)
        · exact hc hhd.symm
        · exact hrest htl

/-- A successfully read line contains no newline before its final one: the
read stops at the first delimiter. -/
theorem readStringNewline_no_interior (s line remaining : List Char)
    (h : readStringNewline s = some (line, remaining)) :
    '\n' ∉ line.dropLast := by
  induction s generalizing line remaining with
  | nil => simp [readStringNewline] at h
  | cons c rest ih =>
    simp only [readStringNewline] at h
    by_cases hc : c = '\n'
    · rw [if_pos hc] at h
      obtain ⟨h1, _⟩ := Prod.mk.injEq .. ▸ Option.some.inj h
      subst h1
      simp
    · rw [if_neg hc] at h
      cases hr : readStringNewline rest with
      | none => rw [hr] at h; exact absurd h (by simp)
      | some p =>
        obtain ⟨l2, r2⟩ := p
        rw [hr] at h
        obtain ⟨h1, _⟩ := Prod.mk.injEq .. ▸ Option.some.inj h
        subst h1
        have hl2last := readStringNewline_last rest l2 r2 hr
        have hint := ih l2 r2 hr
        cases l2 with
        | nil => simp at hl2last
        | cons d ds =>
          rw [List.dropLast_cons₂]
          simp only [List.mem_cons]
          rintro (hhd | htl)
          · exact hc hhd.symm
          · exact hint htl

/-- Draining an empty stream forwards nothing, for any fuel. -/
theorem drainAux_nil (fuel : Nat) : drainAux fuel [] = [] := by
  cases fuel <;> rfl

/-- With enough fuel, the lines forwarded by the drain, concatenated, plus a
newline-free dropped tail, reconstruct the whole stream. -/
theorem drainAux_decompose (fuel : Nat) :
    ∀ s : List Char, s.length ≤ fuel →
      ∃ tail : List Char,
        ((drainAux fuel s).foldr (fun l acc => l.data ++ acc) []) ++ tail = s ∧
        '\n' ∉ tail := by
  induction fuel with
  | zero =>
    intro s hle
    have hs : s = [] := List.length_eq_zero.mp (Nat.le_zero.mp hle)
    subst hs
    exact ⟨[], rfl, by simp⟩
  | succ f ih =>
    intro s hle
    cases hr : readStringNewline s with
    | none =>
      refine ⟨s, ?_, readStringNewline_none s hr⟩
      simp [drainAux, hr]
    | some p =>
      obtain ⟨line, remaining⟩ := p
      have happ := readStringNewline_append s line remaining hr
      have hlen : remaining.length ≤ f := by
        have := readStringNewline_shorter s line remaining hr
        omega
      obtain ⟨tail, htail, hnl⟩ := ih remaining hlen
      refine ⟨tail, ?_, hnl⟩
      simp only [drainAux, hr, List.foldr_cons]
      rw [List.append_assoc, htail]
      simpa [List.asString] using happ

/-- With enough fuel, the concatenation of all forwarded lines reconstructs a
newline-terminated stream. -/
theorem drainAux_join (fuel : Nat) :
    ∀ s : List Char, s.length ≤ fuel → s.getLast? = some '\n' →
      (drainAux fuel s).foldr (fun l acc => l.data ++ acc) [] = s := by
  induction fuel with
  | zero =>
    intro s hle hlast
    have : s = [] := List.length_eq_zero.mp (Nat.le_zero.mp hle)
    subst this
    simp at hlast
  | succ f ih =>
    intro s hle hlast
    have hsome := readStringNewline_total s hlast
    obtain ⟨⟨line, remaining⟩, hr⟩ := Option.isSome_iff_exists.mp hsome
    have happ := readStringNewline_append s line remaining hr
    simp only [drainAux, hr, List.foldr_cons]
    by_cases hrem : remaining = []
    · subst hrem
      rw [drainAux_nil]
      simpa [List.asString] using happ
    · have hlast2 : remaining.getLast? = some '\n' := by
        rw [← happ, List.getLast?_append_of_ne_nil line hrem] at hlast
        exact hlast
      have hlen : remaining.length ≤ f := by
        have := readStringNewline_shorter s line remaining hr
        omega
      rw [ih remaining hlen hlast2]
      simpa [List.asString] using happ

/-- Every line the drain forwards ends with the newline delimiter. -/
theorem drainAux_lines_terminated (fuel : Nat) :
    ∀ (s : List Char) (l : String), l ∈ drainAux fuel s → l.data.getLast? = some '\n' := by
  induction fuel with
  | zero =>
    intro s l h
    simp [drainAux] at h
  | succ f ih =>
    intro s l h
    simp only [drainAux] at h
    cases hr : readStringNewline s with
    | none => rw [hr] at h; simp at h
    | some p =>
      obtain ⟨line, remaining⟩ := p
      rw [hr] at h
      rcases List.mem_cons.mp h with h | h
      · subst h
        simpa [List.asString] using readStringNewline_last s line remaining hr
      · exact ih remaining l h

/-- Every line the drain forwards has no newline before its final one. -/
theorem drainAux_lines_single (fuel : Nat) :
    ∀ (s : List Char) (l : String), l ∈ drainAux fuel s → '\n' ∉ l.data.dropLast := by
  induction fuel with
  | zero =>
    intro s l h
    simp [drainAux] at h
  | succ f ih =>
    intro s l h
    simp only [drainAux] at h
    cases hr : readStringNewline s with
    | none => rw [hr] at h; simp at h
    | some p =>
      obtain ⟨line, remaining⟩ := p
      rw [hr] at h
      rcases List.mem_cons.mp h with h | h
      · subst h
        simpa [List.asString] using readStringNewline_no_interior s line remaining hr
      · exact ih remaining l h

/-- Claim C10 counterexample: the stream "hi" ends without a newline; its
final line reaches the drain but is never delivered to the sink. -/
theorem drain_drops_unterminated_line :
    pipeLogStreamToCallback (String.data ("hi")) = [] ∧
    pipeLogStreamToCallback (String.data ("hi")) ≠ [("hi" : String)] :=
  ⟨rfl, by decide⟩

/-- Claim C10 (amended): for every stream, the drain forwards, in order,
exactly the newline-terminated lines of the stream: each forwarded line ends
with the delimiter and contains no earlier newline, and the concatenation of
the forwarded lines plus a newline-free dropped tail — the final line left
without a trailing newline — reconstructs the whole stream.  In particular,
when the stream ends with a newline, everything is forwarded. -/
theorem drain_forwards_terminated_lines (s : List Char) :
    (∃ tail : List Char,
      ((pipeLogStreamToCallback s).foldr (fun l acc => l.data ++ acc) []) ++ tail = s ∧
      '\n' ∉ tail) ∧
    (∀ l ∈ pipeLogStreamToCallback s,
      l.data.getLast? = some '\n' ∧ '\n' ∉ l.data.dropLast) ∧
    (s.getLast? = some '\n' →
      (pipeLogStreamToCallback s).foldr (fun l acc => l.data ++ acc) [] = s) :=
  ⟨drainAux_decompose s.length s le_rfl,
   fun l hl => ⟨drainAux_lines_terminated s.length s l hl,
     drainAux_lines_single s.length s l hl⟩,
   fun hlast => drainAux_join s.length s le_rfl hlast⟩

/-- Witness for C10: on the mixed stream "a\nhi" the delivered lines plus a
newline-free dropped tail reconstruct the stream, and the fully terminated
stream "a\nbc\n" is forwarded in full. -/
theorem drain_forwards_terminated_lines_witness :
    (∃ tail : List Char,
      ((pipeLogStreamToCallback (String.data ("a\nhi"))).foldr
          (fun l acc => l.data ++ acc) []) ++ tail = String.data ("a\nhi") ∧
      '\n' ∉ tail) ∧
    ((pipeLogStreamToCallback (String.data ("a\nbc\n"))).foldr
        (fun l acc => l.data ++ acc) [] = String.data ("a\nbc\n")) :=
  ⟨(drain_forwards_terminated_lines (String.data ("a\nhi"))).1,
   (drain_forwards_terminated_lines (String.data ("a\nbc\n"))).2.2 (by decide)⟩

/-! ## Claim C9: the port allocator -/

/-- Decomposition of the loop guard of `findFreePortAux`: when it holds, the
current port is fresh and bindable. -/
theorem portGuard_true {l : List Nat} {env : PortEnv} {port : Nat}
    (hc : (!l.contains port && env.bindOk port) = true) :
    l.contains port = false ∧ env.bindOk port = true := by
  cases hcb : l.contains port with
  | true => rw [hcb] at hc; exact absurd hc (by simp)
  | false =>
    rw [hcb] at hc
    simp only [Bool.not_false, Bool.true_and] at hc
    exact ⟨rfl, hc⟩

/-- Loop analysis of `findFreePortAux`: for a current candidate in the draw
window, the loop either gives up with the sentinel (state unchanged) or
returns a fresh, bindable port inside the window, recording it. -/
theorem findFreePortAux_cases (startPort : Nat) (env : PortEnv) (handedOut : List Nat) :
    ∀ (fuel port drawIdx : Nat), startPort ≤ port → port < startPort + 10000 →
      (findFreePortAux startPort env handedOut port drawIdx fuel = (-1, handedOut)) ∨
      (∃ p : Nat, findFreePortAux startPort env handedOut port drawIdx fuel =
          ((p : Int), p :: handedOut) ∧
        handedOut.contains p = false ∧ env.bindOk p = true ∧
        startPort ≤ p ∧ p < startPort + 10000) := by
  intro fuel
  induction fuel with
  | zero =>
    intro port drawIdx hlo hhi
    simp only [findFreePortAux]
    by_cases hc : (!handedOut.contains port && env.bindOk port) = true
    · rw [if_pos hc]
      obtain ⟨hfresh, hbind⟩ := portGuard_true hc
      exact Or.inr ⟨port, rfl, hfresh, hbind, hlo, hhi⟩
    · rw [if_neg hc]
      exact Or.inl rfl
  | succ f ih =>
    intro port drawIdx hlo hhi
    simp only [findFreePortAux]
    by_cases hc : (!handedOut.contains port && env.bindOk port) = true
    · rw [if_pos hc]
      obtain ⟨hfresh, hbind⟩ := portGuard_true hc
      exact Or.inr ⟨port, rfl, hfresh, hbind, hlo, hhi⟩
    · rw [if_neg hc]
      exact ih _ (drawIdx + 1) (Nat.le_add_right ..)
        (by have := Nat.mod_lt (env.randFn drawIdx) (show 0 < 10000 by decide); omega)

/-- A port the loop returns was not in the handed-out set it started from. -/
theorem findFreePortAux_fresh (startPort : Nat) (env : PortEnv) (handedOut : List Nat) :
    ∀ (fuel port drawIdx : Nat) (q : Nat),
      (findFreePortAux startPort env handedOut port drawIdx fuel).1 = (q : Int) →
      handedOut.contains q = false := by
  intro fuel
  induction fuel with
  | zero =>
    intro port drawIdx q h
    simp only [findFreePortAux] at h
    by_cases hc : (!handedOut.contains port && env.bindOk port) = true
    · rw [if_pos hc] at h
      obtain ⟨hfresh, _⟩ := portGuard_true hc
      have h2 : (port : Int) = (q : Int) := h
      have hpq : port = q := by exact_mod_cast h2
      subst hpq
      exact hfresh
    · rw [if_neg hc] at h
      have h2 : (-1 : Int) = (q : Int) := h
      omega
  | succ f ih =>
    intro port drawIdx q h
    simp only [findFreePortAux] at h
    by_cases hc : (!handedOut.contains port && env.bindOk port) = true
    · rw [if_pos hc] at h
      obtain ⟨hfresh, _⟩ := portGuard_true hc
      have h2 : (port : Int) = (q : Int) := h
      have hpq : port = q := by exact_mod_cast h2
      subst hpq
      exact hfresh
    · rw [if_neg hc] at h
      exact ih _ _ q h

/-- Claim C9: `FindFreePort` terminates with either a fresh bindable port in
the pseudo-random window above the base, recorded in the process-wide state,
or the sentinel -1 after its bounded retry budget — and once a port has been
handed out, no later call returns the same port again. -/
theorem findFreePort_spec (startPort : Nat) (env : PortEnv) (handedOut : List Nat) :
    ((findFreePort startPort env handedOut = (-1, handedOut)) ∨
      (∃ p : Nat, findFreePort startPort env handedOut = ((p : Int), p :: handedOut) ∧
        handedOut.contains p = false ∧ env.bindOk p = true ∧
        startPort ≤ p ∧ p < startPort + 10000)) ∧
    (∀ (p : Nat) (startPort2 : Nat) (env2 : PortEnv),
      (findFreePort startPort env handedOut).1 = (p : Int) →
      (findFreePort startPort2 env2 (findFreePort startPort env handedOut).2).1 ≠ (p : Int)) := by
  have hmain := findFreePortAux_cases startPort env handedOut 1000
    (startPort + env.randFn 0 % 10000) 1 (Nat.le_add_right ..)
    (by have := Nat.mod_lt (env.randFn 0) (show 0 < 10000 by decide); omega)
  refine ⟨hmain, fun p startPort2 env2 hp hq => ?_⟩
  rcases hmain with hfail | ⟨q, heq, _, _, _, _⟩
  · have hfp : findFreePort startPort env handedOut = (-1, handedOut) := hfail
    rw [hfp] at hp
    have h2 : (-1 : Int) = (p : Int) := hp
    omega
  · have hfp : findFreePort startPort env handedOut = ((q : Int), q :: handedOut) := heq
    rw [hfp] at hp hq
    have hqp : q = p := by
      have h2 : (q : Int) = (p : Int) := hp
      exact_mod_cast h2
    subst hqp
    have hfresh := findFreePortAux_fresh startPort2 env2 (((q : Int), q :: handedOut)).2 1000
      (startPort2 + env2.randFn 0 % 10000) 1 q hq
    simp [List.contains_cons] at hfresh

/-- Witness for C9: after 8000 is handed out, a second allocation never
returns 8000 again (here it exhausts its budget and returns the sentinel). -/
theorem findFreePort_spec_witness :
    (findFreePort 8000 portEnvBindAll
        (findFreePort 8000 portEnvBindAll []).2).1 ≠ ((8000 : Nat) : Int) :=
  (findFreePort_spec 8000 portEnvBindAll []).2 8000 8000 portEnvBindAll rfl

/-- When no bind ever succeeds, the allocator loop always returns the
sentinel, leaving the handed-out set unchanged. -/
theorem findFreePortAux_all_fail (startPort : Nat) (env : PortEnv) (handedOut : List Nat)
    (hfail : ∀ p, env.bindOk p = false) :
    ∀ (fuel port drawIdx : Nat),
      findFreePortAux startPort env handedOut port drawIdx fuel = (-1, handedOut) := by
  intro fuel
  induction fuel with
  | zero =>
    intro port drawIdx
    simp only [findFreePortAux]
    have hng : ¬((!handedOut.contains port && env.bindOk port) = true) := by
      simp [hfail port]
    rw [if_neg hng]
  | succ f ih =>
    intro port drawIdx
    simp only [findFreePortAux]
    have hng : ¬((!handedOut.contains port && env.bindOk port) = true) := by
      simp [hfail port]
    rw [if_neg hng]
    exact ih _ _

/-! ## Claim C5: the unchecked port sentinel -/

/-- Claim C5 counterexample: with every bind failing, `FindFreePort` returns
the sentinel -1, yet the constructor does not fail — it spawns the deno child
with "-1" as the port argument and even returns a usable-looking instance
whose server URL is "http://localhost:-1". -/
theorem sentinel_port_counterexample :
    (findFreePort 8000 portEnvBindNone []).1 = -1 ∧
    outNoPorts.spawned = some ⟨("deno"),
      denoArgs (("work/.deno/function-") ++ newFunctionHash ("x")) ("-1"),
      denoEnvVars cfgT⟩ ∧
    okServerURL outNoPorts = some ("http://localhost:-1") :=
  ⟨rfl, rfl, rfl⟩

/-- Claim C5 (amended): the constructor does not treat the allocator's -1
sentinel as fatal; it proceeds to spawn the child, passing -1 through as the
port argument (failure can only surface later, through boot or connection
behavior). -/
theorem sentinel_port_not_fatal (cfg : Config) (initJSON code : String) (env : ConstructEnv)
    (fs0 : FSState) (ports0 : List Nat)
    (h1 : env.mkdirOk = true) (h2 : env.copyOk = true) (h3 : env.writeJsOk = true)
    (h4 : env.stdoutPipeOk = true) (h5 : env.stderrPipeOk = true) (h6 : env.startOk = true)
    (hbind : ∀ p, env.port.bindOk p = false) :
    (findFreePort 8000 env.port ports0).1 = -1 ∧
    (newDenoFunctionInstance cfg initJSON code env fs0 ports0).spawned =
      some ⟨cfg.denoPath,
        denoArgs (cfg.workDir ++ "/.deno/function-" ++ newFunctionHash code) ("-1"),
        denoEnvVars cfg⟩ := by
  obtain ⟨mk, cp, wr, pe, so, se, st, boot⟩ := env
  replace h1 : mk = true := h1
  replace h2 : cp = true := h2
  replace h3 : wr = true := h3
  replace h4 : so = true := h4
  replace h5 : se = true := h5
  replace h6 : st = true := h6
  replace hbind : ∀ p, pe.bindOk p = false := hbind
  subst h1 h2 h3 h4 h5 h6
  have hfp : findFreePort 8000 pe ports0 = (-1, ports0) :=
    findFreePortAux_all_fail 8000 pe ports0 hbind 1000 _ 1
  constructor
  · rw [hfp]
  · cases hw : (waitForServer boot).1 <;>
      simp only [newDenoFunctionInstance, Bool.not_true, if_false, hw] <;>
      rw [hfp] <;>
      rfl

/-! ## Claim C4: spawn failure leaves the directory behind -/

/-- Claim C4 counterexample: when `cmd.Start` fails (for example because the
engine executable does not exist), the constructor returns the spawn failure,
but the just-materialized working directory is left behind on disk. -/
theorem spawn_failure_counterexample :
    outSpawnFail.result = .fail .denoRun ∧
    dirExists outSpawnFail.fs (("work/.deno/function-") ++ newFunctionHash ("x")) = true :=
  ⟨rfl, rfl⟩

/-- Claim C4 (amended): if construction fails at the process-spawn step, the
constructor returns the spawn failure without having spawned anything, and the
working directory materialized earlier in the run remains on disk (the
rollback that removes it only covers failures after a successful spawn). -/
theorem spawn_failure_leaves_dir (cfg : Config) (initJSON code : String) (env : ConstructEnv)
    (fs0 : FSState) (ports0 : List Nat)
    (h1 : env.mkdirOk = true) (h2 : env.copyOk = true) (h3 : env.writeJsOk = true)
    (h4 : env.stdoutPipeOk = true) (h5 : env.stderrPipeOk = true) (h6 : env.startOk = false) :
    (newDenoFunctionInstance cfg initJSON code env fs0 ports0).result = .fail .denoRun ∧
    dirExists (newDenoFunctionInstance cfg initJSON code env fs0 ports0).fs
      (cfg.workDir ++ "/.deno/function-" ++ newFunctionHash code) = true ∧
    (newDenoFunctionInstance cfg initJSON code env fs0 ports0).spawned = none := by
  obtain ⟨mk, cp, wr, pe, so, se, st, boot⟩ := env
  replace h1 : mk = true := h1
  replace h2 : cp = true := h2
  replace h3 : wr = true := h3
  replace h4 : so = true := h4
  replace h5 : se = true := h5
  replace h6 : st = false := h6
  subst h1 h2 h3 h4 h5 h6
  exact ⟨rfl, dirExists_materialized fs0 _ _ _, rfl⟩

/-! ## Claim C1: the materialized directory -/

/-- Claim C1 counterexample: an all-successful construction materializes the
working directory at workDir/.deno/function-hash; the spec's
workDir/.cache/function-hash path does not exist on the resulting
filesystem. -/
theorem materialized_dir_counterexample :
    okTempDir outAllOk = some (("work/.deno/function-") ++ newFunctionHash ("x")) ∧
    dirExists outAllOk.fs (specFunctionDir ("work") (newFunctionHash ("x"))) = false ∧
    dirExists outAllOk.fs (("work/.deno/function-") ++ newFunctionHash ("x")) = true :=
  ⟨rfl, rfl, rfl⟩

/-- Claim C1 (amended): for every working-directory root and source text, a
successfully constructed instance has its materialized working directory at
exactly workDir/.deno/function-hash (hash the content hash of the source),
that directory exists on the resulting filesystem, and directory creation is
idempotent — creating it again is a no-op, so an existing directory for an
identical hash is reused. -/
theorem materialized_dir_spec (cfg : Config) (initJSON code : String) (env : ConstructEnv)
    (fs0 : FSState) (ports0 : List Nat) (inst : DenoFunctionInstance)
    (hok : (newDenoFunctionInstance cfg initJSON code env fs0 ports0).result = .ok inst) :
    inst.tempDir = cfg.workDir ++ "/.deno/function-" ++ newFunctionHash code ∧
    dirExists (newDenoFunctionInstance cfg initJSON code env fs0 ports0).fs inst.tempDir = true ∧
    (∀ fs : FSState, mkdirAll (mkdirAll fs inst.tempDir) inst.tempDir = mkdirAll fs inst.tempDir) ∧
    (∀ fs : FSState, dirExists fs inst.tempDir = true → mkdirAll fs inst.tempDir = fs) := by
  obtain ⟨mk, cp, wr, pe, so, se, st, boot⟩ := env
  cases mk <;> cases cp <;> cases wr <;> cases so <;> cases se <;> cases st <;>
    try exact ConstructResult.noConfusion hok
  cases hw : (waitForServer boot).1 with
  | canceled => simp [newDenoFunctionInstance, hw] at hok
  | exitedOnBoot => simp [newDenoFunctionInstance, hw] at hok
  | stillWaiting => simp [newDenoFunctionInstance, hw] at hok
  | ready =>
    have hinst : (⟨"http://localhost:" ++ toString (findFreePort 8000 pe ports0).1,
        cfg.workDir ++ "/.deno/function-" ++ newFunctionHash code, none⟩ :
          DenoFunctionInstance) = inst := by
      refine ConstructResult.ok.inj ?_
      calc ConstructResult.ok (⟨"http://localhost:" ++ toString (findFreePort 8000 pe ports0).1,
            cfg.workDir ++ "/.deno/function-" ++ newFunctionHash code, none⟩ :
              DenoFunctionInstance)
          = (newDenoFunctionInstance cfg initJSON code
              ⟨true, true, true, pe, true, true, true, boot⟩ fs0 ports0).result := by
            simp [newDenoFunctionInstance, hw]
        _ = ConstructResult.ok inst := hok
    subst hinst
    refine ⟨rfl, ?_, fun fs => mkdirAll_idem fs _, fun fs h => mkdirAll_of_exists fs _ h⟩
    have hfs : (newDenoFunctionInstance cfg initJSON code
        ⟨true, true, true, pe, true, true, true, boot⟩ fs0 ports0).fs =
        writeFile (copyDenoFiles
            (mkdirAll fs0 (cfg.workDir ++ "/.deno/function-" ++ newFunctionHash code))
            (cfg.workDir ++ "/.deno/function-" ++ newFunctionHash code))
          (cfg.workDir ++ "/.deno/function-" ++ newFunctionHash code ++ "/function.js")
          (wrapScript initJSON code) := by
      simp [newDenoFunctionInstance, hw]
    rw [hfs]
    exact dirExists_materialized fs0 _ _ _

/-- Witness for C1: the all-ok construction at workDir "work" and source "x"
yields the .deno function directory, existing and idempotently creatable. -/
theorem materialized_dir_spec_witness :
    instT.tempDir = cfgT.workDir ++ "/.deno/function-" ++ newFunctionHash ("x") ∧
    dirExists outAllOk.fs instT.tempDir = true ∧
    (∀ fs : FSState,
      mkdirAll (mkdirAll fs instT.tempDir) instT.tempDir = mkdirAll fs instT.tempDir) ∧
    (∀ fs : FSState, dirExists fs instT.tempDir = true → mkdirAll fs instT.tempDir = fs) :=
  materialized_dir_spec cfgT ("\x7b\x7d") ("x") envAllOk emptyFS [] instT rfl

/-- Witness for C4: the concrete spawn-failure run. -/
theorem spawn_failure_leaves_dir_witness :
    outSpawnFail.result = .fail .denoRun ∧
    dirExists outSpawnFail.fs
      (cfgT.workDir ++ "/.deno/function-" ++ newFunctionHash ("x")) = true ∧
    outSpawnFail.spawned = none :=
  spawn_failure_leaves_dir cfgT ("\x7b\x7d") ("x") envSpawnFail emptyFS []
    rfl rfl rfl rfl rfl rfl

/-- Witness for C5: the concrete no-free-port run spawns with "-1". -/
theorem sentinel_port_not_fatal_witness :
    (findFreePort 8000 envNoPorts.port []).1 = -1 ∧
    outNoPorts.spawned = some ⟨cfgT.denoPath,
      denoArgs (cfgT.workDir ++ "/.deno/function-" ++ newFunctionHash ("x")) ("-1"),
      denoEnvVars cfgT⟩ :=
  sentinel_port_not_fatal cfgT ("\x7b\x7d") ("x") envNoPorts emptyFS []
    rfl rfl rfl rfl rfl rfl (fun _ => rfl)

/-! ## Claim C7: Invoke calls on one instance never overlap -/

/-- Initial state satisfies the lock invariant. -/
theorem lockInv_initMulti (n : Nat) : lockInv (initMulti n) := by
  intro t h
  simp [initMulti, holdsLockAt] at h

/-- Positions linked by `nextPc` both lie inside the protected body. -/
theorem nextPc_holds {p q : InvokePc} (h : nextPc p = some q) :
    holdsLockAt p = true ∧ holdsLockAt q = true := by
  cases p with
  | start => exact Option.noConfusion h
  | checkExited => cases Option.some.inj h; exact ⟨rfl, rfl⟩
  | buildRequest => cases Option.some.inj h; exact ⟨rfl, rfl⟩
  | httpCall => cases Option.some.inj h; exact ⟨rfl, rfl⟩
  | decodeResponse => cases Option.some.inj h; exact ⟨rfl, rfl⟩
  | classify => exact Option.noConfusion h
  | finished => exact Option.noConfusion h

/-- Every interleaving step preserves the lock invariant. -/
theorem lockInv_preserved {n : Nat} {s s2 : MultiState n}
    (hstep : InvokeStep n s s2) (hinv : lockInv s) : lockInv s2 := by
  cases hstep with
  | acquire t hpc hfree =>
    intro u hu
    by_cases hut : u = t
    · rw [hut]
    · have hu2 : holdsLockAt (Function.update s.pcs t InvokePc.checkExited u) = true := hu
      rw [Function.update_noteq hut] at hu2
      have hcontra := hinv u hu2
      rw [hfree] at hcontra
      exact absurd hcontra (by simp)
  | advance t p q hpc hnext =>
    intro u hu
    obtain ⟨hp, _⟩ := nextPc_holds hnext
    by_cases hut : u = t
    · rw [hut]
      exact hinv t (by rw [hpc]; exact hp)
    · have hu2 : holdsLockAt (Function.update s.pcs t q u) = true := hu
      rw [Function.update_noteq hut] at hu2
      exact hinv u hu2
  | release t hpc =>
    intro u hu
    by_cases hut : u = t
    · rw [hut] at hu
      have hu2 : holdsLockAt (Function.update s.pcs t InvokePc.finished t) = true := hu
      rw [Function.update_same] at hu2
      exact absurd hu2 (by simp [holdsLockAt])
    · have hu2 : holdsLockAt (Function.update s.pcs t InvokePc.finished u) = true := hu
      rw [Function.update_noteq hut] at hu2
      have h1 := hinv u hu2
      have h2 := hinv t (by rw [hpc]; rfl)
      rw [h1] at h2
      exact absurd (Option.some.inj h2) hut

/-- Every reachable state satisfies the lock invariant. -/
theorem lockInv_reachable {n : Nat} {s : MultiState n} (h : ReachableInvoke n s) :
    lockInv s := by
  induction h with
  | refl => exact lockInv_initMulti n
  | tail _ hstep ih => exact lockInv_preserved hstep ih

/-- Claim C7: in every reachable interleaving of `n` concurrent `Invoke` calls
on one instance, at most one call is ever inside the lock-protected body, and
that body spans the whole invocation attempt — the exit check, request
construction, the HTTP call, response decoding and classification all hold the
lock — so no two `Invoke` calls overlap. -/
theorem invoke_mutual_exclusion (n : Nat) (s : MultiState n)
    (hreach : ReachableInvoke n s) (t1 t2 : Fin n)
    (h1 : holdsLockAt (s.pcs t1) = true) (h2 : holdsLockAt (s.pcs t2) = true) :
    t1 = t2 ∧ holdsLockAt .checkExited = true ∧ holdsLockAt .buildRequest = true ∧
    holdsLockAt .httpCall = true ∧ holdsLockAt .decodeResponse = true ∧
    holdsLockAt .classify = true := by
  have hinv := lockInv_reachable hreach
  have heq := (hinv t1 h1).symm.trans (hinv t2 h2)
  exact ⟨Option.some.inj heq, rfl, rfl, rfl, rfl, rfl⟩

/-- Witness for C7: after one call acquires the lock, it is the unique call in
the protected body. -/
theorem invoke_mutual_exclusion_witness :
    ((0 : Fin 2) = (0 : Fin 2)) ∧ holdsLockAt .checkExited = true ∧
    holdsLockAt .buildRequest = true ∧ holdsLockAt .httpCall = true ∧
    holdsLockAt .decodeResponse = true ∧ holdsLockAt .classify = true :=
  invoke_mutual_exclusion 2 ⟨some 0, Function.update (initMulti 2).pcs 0 .checkExited⟩
    (Relation.ReflTransGen.single (InvokeStep.acquire (initMulti 2) 0 rfl rfl)) 0 0
    (by simp [initMulti, holdsLockAt]) (by simp [initMulti, holdsLockAt])

end DenoRunner
